import Mathlib

/-!
Shallow embedding of the NeuroCrypto-Analyst analytics core
(`src/services/technicalService.ts` and the websocket merge handler of
`src/components/TechnicalDashboard.tsx`).

Prices and derived quantities are modelled as rationals.  `Math.sqrt` is an
opaque real-valued operation in the source; every definition that needs it
takes an explicit `sq : ℚ → ℚ` parameter, and theorems that depend on its
behaviour assume only what is true of the real square root (nonnegativity on
nonnegative inputs).  `Math.random()` jitter is likewise passed in explicitly.
Rational division by zero is `0` in Lean; the source hits that case only where
noted in the relevant doc comments.
-/

namespace NeuroCrypto

/-- Trend classification of `performTechnicalAnalysis`. -/
inductive Trend where
  | UP | DOWN | SIDEWAYS
deriving DecidableEq, Repr

/-- Naive signal of `performTechnicalAnalysis`. -/
inductive NaiveSignal where
  | BUY | SELL | NEUTRAL
deriving DecidableEq, Repr

/-- Signal of the `predictSignalXGBoost` scorer. -/
inductive MLSignal where
  | BUY | SELL | HOLD
deriving DecidableEq, Repr

/-- A candle as used throughout the source (`ChartDataPoint` in `types`):
`date` label, close `price`, optional high/low/volume, and the optional
indicator fields attached by `enrichDataWithIndicators`. -/
structure ChartDataPoint where
  date : String
  price : ℚ
  high : Option ℚ := none
  low : Option ℚ := none
  volume : Option ℚ := none
  sma20 : Option ℚ := none
  sma50 : Option ℚ := none
  bollingerUpper : Option ℚ := none
  bollingerLower : Option ℚ := none
deriving DecidableEq, Repr

instance : Inhabited ChartDataPoint := ⟨{ date := "", price := 0 }⟩

/-- MACD triple of `performTechnicalAnalysis`. -/
structure MACDInfo where
  value : ℚ
  signal : ℚ
  histogram : ℚ
deriving DecidableEq, Repr

/-- Bollinger triple of `performTechnicalAnalysis`. -/
structure BollingerInfo where
  middle : ℚ
  upper : ℚ
  lower : ℚ
deriving DecidableEq, Repr

/-- The `TechnicalIndicators` snapshot returned by `performTechnicalAnalysis`. -/
structure TechnicalIndicators where
  rsi : ℚ
  sma20 : ℚ
  sma50 : ℚ
  macd : MACDInfo
  bollinger : BollingerInfo
  atr : ℚ
  trend : Trend
  signal : NaiveSignal
deriving DecidableEq, Repr

/-- Feature vector of an `MLPrediction`. -/
structure MLFeatures where
  rsiNormalized : ℚ
  trendStrength : ℚ
  volatility : ℚ
deriving DecidableEq, Repr

/-- Result of `predictSignalXGBoost`. -/
structure MLPrediction where
  signal : MLSignal
  confidence : ℚ
  features : MLFeatures
deriving DecidableEq, Repr

/-- Result of `runBacktest`. -/
structure BacktestResult where
  initialBalance : ℚ
  finalBalance : ℚ
  totalReturn : ℚ
  trades : ℕ
  winningTrades : ℕ
  maxDrawdown : ℚ
  equityCurve : List ChartDataPoint
deriving DecidableEq, Repr

/-- The last `n` elements of a list: JS `slice(-n)` (for `n ≤ l.length`,
`slice(l.length - n)`). -/
def lastN (n : ℕ) (l : List ℚ) : List ℚ := l.drop (l.length - n)

/-- JS `o || fallback` on an optional number: `undefined` and the falsy `0`
both select the fallback. -/
def jsOr (o : Option ℚ) (fallback : ℚ) : ℚ :=
  match o with
  | some v => if v = 0 then fallback else v
  | none => fallback

/-- Per-point body of `enrichDataWithIndicators`: given the full price list, the
point's index and the point itself, attach SMA20/SMA50/Bollinger computed from
prices `[0..index]` only. -/
def enrichPoint (sq : ℚ → ℚ) (prices : List ℚ) (index : ℕ)
    (point : ChartDataPoint) : ChartDataPoint :=
  let slice := prices.take (index + 1)
  let sma20 : Option ℚ :=
    if 20 ≤ slice.length then some ((lastN 20 slice).sum / 20) else none
  let sma50 : Option ℚ :=
    if 50 ≤ slice.length then some ((lastN 50 slice).sum / 50) else none
  match sma20 with
  | some m =>
    let periodSlice := lastN 20 slice
    let stdDev := sq ((periodSlice.map (fun val => (val - m) ^ 2)).sum / 20)
    { point with
      sma20 := some m
      sma50 := sma50
      bollingerUpper := some (m + stdDev * 2)
      bollingerLower := some (m - stdDev * 2) }
  | none =>
    { point with
      sma20 := none
      sma50 := sma50
      bollingerUpper := none
      bollingerLower := none }

/-- `enrichDataWithIndicators`: whole-series enrichment, `data.map((point, index) => ...)`. -/
def enrichDataWithIndicators (sq : ℚ → ℚ) (data : List ChartDataPoint) :
    List ChartDataPoint :=
  let prices := data.map (·.price)
  (List.range data.length).map
    (fun index => enrichPoint sq prices index (data.getD index default))

/-- `calculateSMA`: mean of the last `period` values, `0` when the history is
shorter than `period`. -/
def calculateSMA (data : List ℚ) (period : ℕ) : ℚ :=
  if data.length < period then 0
  else (lastN period data).sum / period

/-- `calculateStdDev`: population standard deviation of the last `period`
values around their SMA, `0` when the history is shorter than `period`. -/
def calculateStdDev (sq : ℚ → ℚ) (data : List ℚ) (period : ℕ) : ℚ :=
  if data.length < period then 0
  else
    let sma := calculateSMA data period
    let slice := lastN period data
    let squaredDiffs := slice.map (fun val => (val - sma) ^ 2)
    sq (squaredDiffs.sum / period)

/-- Differences `prices[i] - prices[i-1]` for `i` ranging over the last
`period` transitions, exactly the loop of `calculateRSI`. -/
def lastDeltas (prices : List ℚ) (period : ℕ) : List ℚ :=
  (List.range' (prices.length - period) period).map
    (fun i => prices.getD i 0 - prices.getD (i - 1) 0)

/-- `calculateRSI`: `50` with fewer than `period + 1` points; else `100` when
the average loss vanishes; else `100 - 100/(1 + avgGain/avgLoss)`. -/
def calculateRSI (prices : List ℚ) (period : ℕ := 14) : ℚ :=
  if prices.length < period + 1 then 50
  else
    let deltas := lastDeltas prices period
    let gains := (deltas.map (fun d => if 0 ≤ d then d else 0)).sum
    let losses := (deltas.map (fun d => if 0 ≤ d then 0 else -d)).sum
    let avgGain := gains / period
    let avgLoss := losses / period
    if avgLoss = 0 then 100
    else
      let rs := avgGain / avgLoss
      100 - 100 / (1 + rs)

/-- `calculateATR`: mean true range over the last `period` bars, `0` with fewer
than `period + 1` points; missing (or zero, via JS `||`) high/low fall back to
the close. -/
def calculateATR (data : List ChartDataPoint) (period : ℕ := 14) : ℚ :=
  if data.length < period + 1 then 0
  else
    let trs := (List.range' (data.length - period) period).map (fun i =>
      let d := data.getD i default
      let high := jsOr d.high d.price
      let low := jsOr d.low d.price
      let prevClose := (data.getD (i - 1) default).price
      max (high - low) (max |high - prevClose| |low - prevClose|))
    trs.sum / period

/-- `performTechnicalAnalysis`: the point-in-time indicator snapshot. -/
def performTechnicalAnalysis (sq : ℚ → ℚ) (data : List ChartDataPoint) :
    TechnicalIndicators :=
  let prices := data.map (·.price)
  let rsi := calculateRSI prices
  let sma20 := calculateSMA prices 20
  let sma50 := calculateSMA prices 50
  let stdDev20 := calculateStdDev sq prices 20
  let bollinger : BollingerInfo :=
    { middle := sma20
      upper := sma20 + stdDev20 * 2
      lower := sma20 - stdDev20 * 2 }
  let atr := calculateATR data 14
  let ema12 := calculateSMA prices 12
  let ema26 := calculateSMA prices 26
  let macdValue := ema12 - ema26
  let trend : Trend :=
    if sma20 > sma50 then .UP else if sma20 < sma50 then .DOWN else .SIDEWAYS
  let signal : NaiveSignal :=
    if rsi < 30 ∧ trend = .UP then .BUY
    else if rsi > 70 ∧ trend = .DOWN then .SELL
    else .NEUTRAL
  { rsi := rsi
    sma20 := sma20
    sma50 := sma50
    macd := { value := macdValue, signal := macdValue * (9/10), histogram := macdValue * (1/10) }
    bollinger := bollinger
    atr := atr
    trend := trend
    signal := signal }

/-- Score accumulated by the four decision nodes of `predictSignalXGBoost`,
applied in source order.  Rational division by a zero `bollinger.middle` yields
`0` here where the source would produce a non-finite float. -/
def xgbScore (indicators : TechnicalIndicators) (currentPrice : ℚ) : ℚ :=
  let bbWidth := (indicators.bollinger.upper - indicators.bollinger.lower) /
    indicators.bollinger.middle
  let trendScore : ℚ :=
    if indicators.trend = .UP then 1 else if indicators.trend = .DOWN then -1 else 0
  let s0 : ℚ := 0
  let s1 := if trendScore = 1 ∧ currentPrice > indicators.sma50 then s0 + 30 else s0
  let s2 := if trendScore = -1 ∧ currentPrice < indicators.sma50 then s1 - 30 else s1
  let s3 := if indicators.rsi < 30 then s2 + 40 else s2
  let s4 := if indicators.rsi > 70 then s3 - 40 else s3
  let s5 :=
    if bbWidth < 5/100 then
      let t := if currentPrice > indicators.bollinger.upper then s4 + 20 else s4
      if currentPrice < indicators.bollinger.lower then t - 20 else t
    else s4
  if indicators.macd.histogram > 0 then s5 + 10 else s5 - 10

/-- `predictSignalXGBoost`, with the `Math.random() * 5` confidence jitter
passed in as `jitter`. -/
def predictSignalXGBoost (indicators : TechnicalIndicators) (currentPrice : ℚ)
    (jitter : ℚ) : MLPrediction :=
  let rsiNorm := (indicators.rsi - 50) / 50
  let bbWidth := (indicators.bollinger.upper - indicators.bollinger.lower) /
    indicators.bollinger.middle
  let trendScore : ℚ :=
    if indicators.trend = .UP then 1 else if indicators.trend = .DOWN then -1 else 0
  let score := xgbScore indicators currentPrice
  let confidence := min |score| 98 - jitter
  let signal : MLSignal :=
    if score > 25 then .BUY else if score < -25 then .SELL else .HOLD
  { signal := signal
    confidence := max 0 confidence
    features := { rsiNormalized := rsiNorm, trendStrength := trendScore, volatility := bbWidth } }

/-- Mutable loop state of `runBacktest`. -/
structure BtState where
  balance : ℚ
  shares : ℚ
  trades : ℕ
  winningTrades : ℕ
  maxBalance : ℚ
  maxDrawdown : ℚ
  equityCurve : List ChartDataPoint
deriving DecidableEq, Repr

/-- Loop state of `runBacktest` before the first iteration. -/
def btInit (initialBalance : ℚ) : BtState :=
  { balance := initialBalance
    shares := 0
    trades := 0
    winningTrades := 0
    maxBalance := initialBalance
    maxDrawdown := 0
    equityCurve := [] }

/-- One iteration of the `runBacktest` loop at index `i`, with the per-step
confidence jitter supplied by `jitter i`. -/
def btStep (sq : ℚ → ℚ) (jitter : ℕ → ℚ) (data : List ChartDataPoint)
    (st : BtState) (i : ℕ) : BtState :=
  let historySlice := data.take (i + 1)
  let indicators := performTechnicalAnalysis sq historySlice
  let currentPrice := (data.getD i default).price
  let prediction := predictSignalXGBoost indicators currentPrice (jitter i)
  let st1 :=
    if st.shares = 0 then
      if prediction.signal = .BUY ∧ prediction.confidence > 60 then
        { st with shares := st.balance / currentPrice, balance := 0, trades := st.trades + 1 }
      else st
    else
      if prediction.signal = .SELL then
        let newBalance := st.shares * currentPrice
        { st with
          balance := newBalance
          winningTrades := if newBalance > st.maxBalance then st.winningTrades + 1 else st.winningTrades
          shares := 0 }
      else st
  let currentEquity := st1.balance + st1.shares * currentPrice
  let maxBalance := if currentEquity > st1.maxBalance then currentEquity else st1.maxBalance
  let dd := (maxBalance - currentEquity) / maxBalance
  let maxDrawdown := if dd > st1.maxDrawdown then dd else st1.maxDrawdown
  { st1 with
    maxBalance := maxBalance
    maxDrawdown := maxDrawdown
    equityCurve := st1.equityCurve ++ [{ date := (data.getD i default).date, price := currentEquity }] }

/-- State of the `runBacktest` loop after its first `n` iterations (the loop
runs over indices `50, 51, ...`). -/
def btStates (sq : ℚ → ℚ) (jitter : ℕ → ℚ) (data : List ChartDataPoint)
    (initialBalance : ℚ) (n : ℕ) : BtState :=
  (List.range' 50 n).foldl (btStep sq jitter data) (btInit initialBalance)

/-- `runBacktest`: walk-forward simulation from index 50 to the end of the
series. -/
def runBacktest (sq : ℚ → ℚ) (jitter : ℕ → ℚ) (data : List ChartDataPoint)
    (initialBalance : ℚ := 10000) : BacktestResult :=
  let final := btStates sq jitter data initialBalance (data.length - 50)
  let finalEquity :=
    match final.equityCurve.getLast? with
    | some p => p.price
    | none => initialBalance
  { initialBalance := initialBalance
    finalBalance := finalEquity
    totalReturn := (finalEquity - initialBalance) / initialBalance * 100
    trades := final.trades
    winningTrades := final.winningTrades
    maxDrawdown := final.maxDrawdown * 100
    equityCurve := final.equityCurve }

/-- Merge step of the websocket `onmessage` handler in
`TechnicalDashboard.tsx`: replace the last candle in place when the incoming
candle's bucket label matches it, else append and drop the oldest entry past
200.  The incoming candle carries only date/price/high/low/volume, so an
in-place replacement keeps the stored candle's indicator fields (JS object
spread). -/
def mergeTick (prev : List ChartDataPoint) (c : ChartDataPoint) :
    List ChartDataPoint :=
  match prev.getLast? with
  | none => prev
  | some lastCandle =>
    if lastCandle.date = c.date then
      prev.dropLast ++ [{ lastCandle with
        date := c.date
        price := c.price
        high := c.high
        low := c.low
        volume := c.volume }]
    else
      let appended := prev ++ [c]
      if appended.length > 200 then appended.tail else appended

/-- Whole `onmessage` kline update of `TechnicalDashboard.tsx`: with an empty
stored history the tick is dropped and nothing is recomputed; otherwise the
tick is merged, the window re-enriched, and indicator snapshot, prediction and
backtest recomputed from scratch. -/
def wsUpdate (sq : ℚ → ℚ) (jitter : ℚ) (btJitter : ℕ → ℚ)
    (prev : List ChartDataPoint) (c : ChartDataPoint) :
    List ChartDataPoint × Option (TechnicalIndicators × MLPrediction × BacktestResult) :=
  if prev = [] then (prev, none)
  else
    let merged := mergeTick prev c
    let enrichedHistory := enrichDataWithIndicators sq merged
    let newDashboardIndicators := performTechnicalAnalysis sq enrichedHistory
    let currentPrice := ((enrichedHistory.getLast?).getD default).price
    let newPred := predictSignalXGBoost newDashboardIndicators currentPrice jitter
    let newBt := runBacktest sq btJitter enrichedHistory 10000
    (enrichedHistory, some (newDashboardIndicators, newPred, newBt))

/-- Cache TTL of `fetchCryptoData` (`CACHE_DURATION`, milliseconds). -/
def CACHE_DURATION : ℤ := 60 * 1000

/-- One entry of `DATA_CACHE`. -/
structure CacheEntry where
  timestamp : ℤ
  data : List ChartDataPoint
deriving DecidableEq, Repr

/-- The `DATA_CACHE` map, keyed by `symbol-interval-marketType`. -/
def Cache : Type := String → Option CacheEntry

/-- Successful-fetch path of `fetchCryptoData`: return the cached series (no
source call) when the entry is younger than `CACHE_DURATION`; otherwise call
the source, enrich the raw candles, overwrite the entry with that data and the
current time, and return it.  The third component records whether the
underlying source was invoked. -/
def fetchCryptoData (cache : Cache) (cacheKey : String) (now : ℤ)
    (sourceData : List ChartDataPoint) (sq : ℚ → ℚ) :
    List ChartDataPoint × Cache × Bool :=
  match cache cacheKey with
  | some e =>
    if now - e.timestamp < CACHE_DURATION then (e.data, cache, false)
    else
      let enrichedData := enrichDataWithIndicators sq sourceData
      (enrichedData,
        fun k => if k = cacheKey then some ⟨now, enrichedData⟩ else cache k, true)
  | none =>
    let enrichedData := enrichDataWithIndicators sq sourceData
    (enrichedData,
      fun k => if k = cacheKey then some ⟨now, enrichedData⟩ else cache k, true)

/-- Snapshot used to exercise `predictSignalXGBoost` on bands that are not
ordered (`upper < lower`). -/
def c6snapshot : TechnicalIndicators :=
  { rsi := 50
    sma20 := 0
    sma50 := 0
    macd := { value := 0, signal := 0, histogram := 0 }
    bollinger := { middle := 1, upper := 0, lower := 1 }
    atr := 0
    trend := .SIDEWAYS
    signal := .NEUTRAL }

/-- Cache holding a single entry written at time `0`. -/
def c8cache : Cache :=
  fun k => if k = "BTC-1h-SPOT" then some ⟨0, []⟩ else none

section Lemmas

theorem lastN_length {n : ℕ} {l : List ℚ} (h : n ≤ l.length) :
    (lastN n l).length = n := by
  simp [lastN]; omega

theorem enrich_length (sq : ℚ → ℚ) (data : List ChartDataPoint) :
    (enrichDataWithIndicators sq data).length = data.length := by
  simp [enrichDataWithIndicators]

theorem enrichPoint_price (sq : ℚ → ℚ) (prices : List ℚ) (i : ℕ)
    (p : ChartDataPoint) : (enrichPoint sq prices i p).price = p.price := by
  unfold enrichPoint
  dsimp only
  split <;> rfl

theorem enrich_getElem (sq : ℚ → ℚ) (data : List ChartDataPoint) (i : ℕ)
    (hi : i < (enrichDataWithIndicators sq data).length) :
    (enrichDataWithIndicators sq data)[i] =
      enrichPoint sq (data.map (·.price)) i (data.getD i default) := by
  rw [enrich_length] at hi
  simp [enrichDataWithIndicators]

theorem enrich_map_price (sq : ℚ → ℚ) (data : List ChartDataPoint) :
    (enrichDataWithIndicators sq data).map (·.price) = data.map (·.price) := by
  apply List.ext_getElem
  · simp [enrich_length]
  · intro i h1 h2
    simp only [List.getElem_map]
    rw [enrich_getElem sq data i (by simpa using h1), enrichPoint_price]
    rw [List.getD_eq_getElem data default (by simpa using h2)]

theorem enrichPoint_short (sq : ℚ → ℚ) (prices : List ℚ) (i : ℕ)
    (p : ChartDataPoint) (h : ¬ 20 ≤ (prices.take (i + 1)).length) :
    enrichPoint sq prices i p =
      { p with
        sma20 := none
        sma50 := none
        bollingerUpper := none
        bollingerLower := none } := by
  have h50 : ¬ 50 ≤ (prices.take (i + 1)).length := fun h' => h (by omega)
  unfold enrichPoint
  dsimp only
  rw [if_neg h, if_neg h50]

theorem enrichPoint_long (sq : ℚ → ℚ) (prices : List ℚ) (i : ℕ)
    (p : ChartDataPoint) (h : 20 ≤ (prices.take (i + 1)).length) :
    enrichPoint sq prices i p =
      { p with
        sma20 := some ((lastN 20 (prices.take (i + 1))).sum / 20)
        sma50 := if 50 ≤ (prices.take (i + 1)).length then
            some ((lastN 50 (prices.take (i + 1))).sum / 50) else none
        bollingerUpper := some ((lastN 20 (prices.take (i + 1))).sum / 20 +
          sq (((lastN 20 (prices.take (i + 1))).map
            (fun val => (val - (lastN 20 (prices.take (i + 1))).sum / 20) ^ 2)).sum / 20) * 2)
        bollingerLower := some ((lastN 20 (prices.take (i + 1))).sum / 20 -
          sq (((lastN 20 (prices.take (i + 1))).map
            (fun val => (val - (lastN 20 (prices.take (i + 1))).sum / 20) ^ 2)).sum / 20) * 2) } := by
  unfold enrichPoint
  dsimp only
  rw [if_pos h]

theorem enrichPoint_idem (sq : ℚ → ℚ) (prices : List ℚ) (i : ℕ)
    (p : ChartDataPoint) :
    enrichPoint sq prices i (enrichPoint sq prices i p) = enrichPoint sq prices i p := by
  cases p
  unfold enrichPoint
  dsimp only
  split <;> rfl

theorem rsi_aux (g l : ℚ) (hg : 0 ≤ g) (hl : 0 ≤ l) (hne : ¬ l = 0) :
    0 ≤ 100 - 100 / (1 + g / l) ∧ 100 - 100 / (1 + g / l) ≤ 100 := by
  have hl' : 0 < l := lt_of_le_of_ne hl (fun h => hne h.symm)
  have hrs : 0 ≤ g / l := div_nonneg hg hl'.le
  constructor
  · have h1 : 100 / (1 + g / l) ≤ 100 := div_le_self (by norm_num) (by linarith)
    linarith
  · have h2 : (0:ℚ) < 100 / (1 + g / l) := div_pos (by norm_num) (by linarith)
    linarith

theorem ite_shift (c : Prop) [Decidable c] (x a : ℚ) :
    (if c then x + a else x) = x + (if c then a else 0) := by
  split_ifs <;> simp

theorem ite_shift2 (c : Prop) [Decidable c] (x a : ℚ) :
    (if c then x - a else x) = x + (if c then -a else 0) := by
  split_ifs <;> ring

theorem ite_shift3 (c : Prop) [Decidable c] (x a b : ℚ) :
    (if c then x + a + b else x) = x + (if c then a + b else 0) := by
  split_ifs <;> ring

theorem ite_pm (c : Prop) [Decidable c] (x a : ℚ) :
    (if c then x + a else x - a) = x + (if c then a else -a) := by
  split_ifs <;> ring

theorem mergeTick_length_le (prev : List ChartDataPoint) (c : ChartDataPoint)
    (h : prev.length ≤ 200) : (mergeTick prev c).length ≤ 200 := by
  unfold mergeTick
  cases hl : prev.getLast? with
  | none => exact h
  | some last =>
    have hne : prev ≠ [] := fun hnil => by simp [hnil] at hl
    have hpos : 0 < prev.length := List.length_pos.mpr hne
    dsimp only
    split_ifs with hdate hlen
    · simp only [List.length_append, List.length_dropLast, List.length_singleton]
      omega
    · simp only [List.length_tail, List.length_append, List.length_singleton]
      omega
    · simp only [List.length_append, List.length_singleton] at hlen ⊢
      omega

theorem btStates_succ (sq : ℚ → ℚ) (jitter : ℕ → ℚ) (data : List ChartDataPoint)
    (b : ℚ) (n : ℕ) :
    btStates sq jitter data b (n + 1) =
      btStep sq jitter data (btStates sq jitter data b n) (50 + n) := by
  unfold btStates
  rw [List.range'_1_concat, List.foldl_append]
  rfl

theorem btStep_spec (sq : ℚ → ℚ) (jitter : ℕ → ℚ) (data : List ChartDataPoint)
    (st : BtState) (i : ℕ) (hb : 0 ≤ st.balance) (hs : 0 ≤ st.shares)
    (hp : 0 ≤ (data.getD i default).price) :
    0 ≤ (btStep sq jitter data st i).balance ∧ 0 ≤ (btStep sq jitter data st i).shares := by
  unfold btStep
  dsimp only
  split_ifs <;>
    first
      | exact ⟨le_refl 0, div_nonneg hb hp⟩
      | exact ⟨mul_nonneg hs hp, le_refl 0⟩
      | exact ⟨hb, hs⟩

theorem btStep_curve (sq : ℚ → ℚ) (jitter : ℕ → ℚ) (data : List ChartDataPoint)
    (st : BtState) (i : ℕ) :
    (btStep sq jitter data st i).equityCurve =
      st.equityCurve ++ [{
        date := (data.getD i default).date
        price := (btStep sq jitter data st i).balance +
          (btStep sq jitter data st i).shares * (data.getD i default).price }] := by
  unfold btStep
  dsimp only
  split_ifs <;> rfl

end Lemmas

/-- C9: enrichment is idempotent — re-enriching an already-enriched series
yields the identical series, because the computation reads only each point's
price, which enrichment preserves. -/
theorem claim_C9_enrichment_idempotent (sq : ℚ → ℚ) (data : List ChartDataPoint) :
    enrichDataWithIndicators sq (enrichDataWithIndicators sq data) =
      enrichDataWithIndicators sq data := by
  apply List.ext_getElem
  · simp [enrich_length]
  · intro i h1 h2
    rw [enrich_getElem sq _ i h1, enrich_getElem sq data i h2, enrich_map_price]
    rw [List.getD_eq_getElem (enrichDataWithIndicators sq data) default (by simpa using h2),
      enrich_getElem sq data i (by simpa using h2)]
    rw [List.getD_eq_getElem data default (by rw [enrich_length] at h2; simpa using h2)]
    exact enrichPoint_idem sq _ i _

/-- C10: a streaming kline tick arriving while the stored history is empty is
silently dropped — the handler returns the empty series unchanged and performs
none of the recompute steps (no indicator snapshot, prediction or backtest is
produced). -/
theorem claim_C10_empty_history_tick_dropped (sq : ℚ → ℚ) (jitter : ℚ)
    (btJitter : ℕ → ℚ) (c : ChartDataPoint) :
    wsUpdate sq jitter btJitter [] c = ([], none) := rfl

/-- C2: dual insufficient-data convention.  In the whole-series enrichment the
per-point fields stay `none` below the warm-up index (`sma20`/Bollinger for
index < 19, `sma50` for index < 49) and, when defined, are computed from a
window of exactly 20 (resp. 50) samples; the snapshot path's `calculateSMA`
instead returns `0` for any history shorter than its period. -/
theorem claim_C2_insufficient_data_sentinels (sq : ℚ → ℚ)
    (data : List ChartDataPoint) (i : ℕ) (hi : i < data.length) :
    ((i < 19 → ((enrichDataWithIndicators sq data).getD i default).sma20 = none ∧
        ((enrichDataWithIndicators sq data).getD i default).bollingerUpper = none ∧
        ((enrichDataWithIndicators sq data).getD i default).bollingerLower = none) ∧
     (i < 49 → ((enrichDataWithIndicators sq data).getD i default).sma50 = none) ∧
     (∀ v, ((enrichDataWithIndicators sq data).getD i default).sma20 = some v →
        19 ≤ i ∧ v = (lastN 20 ((data.map (·.price)).take (i + 1))).sum / 20 ∧
        (lastN 20 ((data.map (·.price)).take (i + 1))).length = 20) ∧
     (∀ v, ((enrichDataWithIndicators sq data).getD i default).sma50 = some v →
        49 ≤ i ∧ v = (lastN 50 ((data.map (·.price)).take (i + 1))).sum / 50 ∧
        (lastN 50 ((data.map (·.price)).take (i + 1))).length = 50)) ∧
    (∀ (prices : List ℚ) (period : ℕ), prices.length < period →
      calculateSMA prices period = 0) := by
  have hlen : i < (enrichDataWithIndicators sq data).length := by
    rw [enrich_length]; exact hi
  have hget : (enrichDataWithIndicators sq data).getD i default =
      enrichPoint sq (data.map (·.price)) i (data.getD i default) := by
    rw [List.getD_eq_getElem _ default hlen, enrich_getElem]
  have hslice : ((data.map (·.price)).take (i + 1)).length = i + 1 := by
    simp; omega
  constructor
  · rw [hget]
    by_cases h20 : 20 ≤ ((data.map (·.price)).take (i + 1)).length
    · rw [enrichPoint_long sq _ i _ h20]
      refine ⟨?_, ?_, ?_, ?_⟩
      · intro h19
        exact absurd h20 (by rw [hslice]; omega)
      · intro h49
        dsimp only
        rw [if_neg (show ¬ 50 ≤ ((data.map (·.price)).take (i + 1)).length by rw [hslice]; omega)]
      · intro v hv
        dsimp only at hv
        simp only [Option.some.injEq] at hv
        exact ⟨by rw [hslice] at h20; omega, hv.symm, lastN_length h20⟩
      · intro v hv
        dsimp only at hv
        by_cases h50 : 50 ≤ ((data.map (·.price)).take (i + 1)).length
        · rw [if_pos h50] at hv
          simp only [Option.some.injEq] at hv
          exact ⟨by rw [hslice] at h50; omega, hv.symm, lastN_length h50⟩
        · rw [if_neg h50] at hv
          exact absurd hv (by simp)
    · rw [enrichPoint_short sq _ i _ h20]
      refine ⟨?_, ?_, ?_, ?_⟩
      · intro _
        exact ⟨rfl, rfl, rfl⟩
      · intro _
        rfl
      · intro v hv
        exact absurd hv (by simp)
      · intro v hv
        exact absurd hv (by simp)
  · intro prices period h
    unfold calculateSMA
    rw [if_pos h]

/-- Witness for C2: a concrete 3-point series has no `sma20` at index 2, and a
3-point history is too short for a 20-period snapshot SMA, which is `0`. -/
theorem claim_C2_witness :
    ((enrichDataWithIndicators id
      [{ date := "a", price := 1 }, { date := "b", price := 2 },
       { date := "c", price := 3 }]).getD 2 default).sma20 = none ∧
    calculateSMA [1, 2, 3] 20 = 0 :=
  ⟨((claim_C2_insufficient_data_sentinels id
      [{ date := "a", price := 1 }, { date := "b", price := 2 },
       { date := "c", price := 3 }] 2 (by norm_num)).1.1 (by norm_num)).1,
   (claim_C2_insufficient_data_sentinels id
      [{ date := "a", price := 1 }, { date := "b", price := 2 },
       { date := "c", price := 3 }] 2 (by norm_num)).2 [1, 2, 3] 20 (by norm_num)⟩

/-- C3: for a non-empty price sequence, `calculateRSI` with period 14 lies in
`[0, 100]`; it is `50` with fewer than 15 points, `100` when the average loss
over the last 14 transitions vanishes, and otherwise equals
`100 - 100/(1 + avgGain/avgLoss)` with `avgGain`/`avgLoss` the simple averages
of the positive deltas and of the absolute negative deltas. -/
theorem claim_C3_rsi_range_and_formula (prices : List ℚ) (_hne : prices ≠ []) :
    (0 ≤ calculateRSI prices 14 ∧ calculateRSI prices 14 ≤ 100) ∧
    (prices.length < 15 → calculateRSI prices 14 = 50) ∧
    (15 ≤ prices.length →
      (((lastDeltas prices 14).map (fun d => if 0 ≤ d then 0 else -d)).sum / 14 = 0 →
        calculateRSI prices 14 = 100) ∧
      (((lastDeltas prices 14).map (fun d => if 0 ≤ d then 0 else -d)).sum / 14 ≠ 0 →
        calculateRSI prices 14 =
          100 - 100 / (1 +
            (((lastDeltas prices 14).map (fun d => if 0 ≤ d then d else 0)).sum / 14) /
            (((lastDeltas prices 14).map (fun d => if 0 ≤ d then 0 else -d)).sum / 14)))) := by
  have hgain : (0:ℚ) ≤ ((lastDeltas prices 14).map (fun d => if 0 ≤ d then d else 0)).sum := by
    apply List.sum_nonneg
    intro x hx
    simp only [List.mem_map] at hx
    obtain ⟨d, _, rfl⟩ := hx
    split <;> simp_all
  have hloss : (0:ℚ) ≤ ((lastDeltas prices 14).map (fun d => if 0 ≤ d then 0 else -d)).sum := by
    apply List.sum_nonneg
    intro x hx
    simp only [List.mem_map] at hx
    obtain ⟨d, hd, rfl⟩ := hx
    split
    · exact le_refl 0
    · rename_i hdneg
      linarith [not_le.mp hdneg]
  refine ⟨?_, ?_, ?_⟩
  · unfold calculateRSI
    dsimp only
    split
    · norm_num
    · split
      · norm_num
      · rename_i hshort havg
        exact rsi_aux _ _ (div_nonneg hgain (Nat.cast_nonneg _))
          (div_nonneg hloss (Nat.cast_nonneg _)) havg
  · intro h
    unfold calculateRSI
    rw [if_pos (show prices.length < 14 + 1 by omega)]
  · intro h
    constructor
    · intro hz
      unfold calculateRSI
      rw [if_neg (show ¬ prices.length < 14 + 1 by omega)]
      dsimp only
      simp only [Nat.cast_ofNat]
      rw [if_pos hz]
    · intro hz
      unfold calculateRSI
      rw [if_neg (show ¬ prices.length < 14 + 1 by omega)]
      dsimp only
      simp only [Nat.cast_ofNat]
      rw [if_neg hz]

/-- Witness for C3 at the concrete one-point sequence `[5]`. -/
theorem claim_C3_witness :
    (0 ≤ calculateRSI [(5:ℚ)] 14 ∧ calculateRSI [(5:ℚ)] 14 ≤ 100) ∧
    ([(5:ℚ)].length < 15 → calculateRSI [(5:ℚ)] 14 = 50) :=
  ⟨(claim_C3_rsi_range_and_formula [(5:ℚ)] (by simp)).1,
   (claim_C3_rsi_range_and_formula [(5:ℚ)] (by simp)).2.1⟩

/-- C5: the scorer's total is exactly the sum of the four decision nodes
(trend-following ±30, mean-reversion ±40, volatility-squeeze ±20 gated on band
width < 0.05, momentum ±10), and the emitted signal is BUY iff the score
exceeds 25, SELL iff it is below −25, HOLD otherwise. -/
theorem claim_C5_scorer_rule_set (ind : TechnicalIndicators) (p jitter : ℚ) :
    xgbScore ind p =
      ((if ind.trend = .UP ∧ p > ind.sma50 then 30 else 0) +
       (if ind.trend = .DOWN ∧ p < ind.sma50 then -30 else 0)) +
      ((if ind.rsi < 30 then 40 else 0) + (if ind.rsi > 70 then -40 else 0)) +
      (if (ind.bollinger.upper - ind.bollinger.lower) / ind.bollinger.middle < 5/100 then
        (if p > ind.bollinger.upper then 20 else 0) +
        (if p < ind.bollinger.lower then -20 else 0)
       else 0) +
      (if ind.macd.histogram > 0 then 10 else -10) ∧
    ((predictSignalXGBoost ind p jitter).signal = .BUY ↔ xgbScore ind p > 25) ∧
    ((predictSignalXGBoost ind p jitter).signal = .SELL ↔ xgbScore ind p < -25) ∧
    ((predictSignalXGBoost ind p jitter).signal = .HOLD ↔
      ¬ xgbScore ind p > 25 ∧ ¬ xgbScore ind p < -25) := by
  constructor
  · have hc1 : ((if ind.trend = Trend.UP then (1:ℚ) else
        if ind.trend = Trend.DOWN then -1 else 0) = 1 ∧ p > ind.sma50) ↔
        (ind.trend = .UP ∧ p > ind.sma50) := by
      cases htr : ind.trend <;> simp [htr]
      all_goals norm_num
    have hc2 : ((if ind.trend = Trend.UP then (1:ℚ) else
        if ind.trend = Trend.DOWN then -1 else 0) = -1 ∧ p < ind.sma50) ↔
        (ind.trend = .DOWN ∧ p < ind.sma50) := by
      cases htr : ind.trend <;> simp [htr]
      all_goals norm_num
    unfold xgbScore
    dsimp only
    simp only [ite_pm, ite_shift, ite_shift2, ite_shift3]
    simp only [hc1, hc2]
    ring
  · unfold predictSignalXGBoost
    dsimp only
    split_ifs with h1 h2
    · have hn : ¬ xgbScore ind p < -25 := by linarith
      simp [h1, hn]
    · simp [h1, h2]
    · simp [h1, h2]

/-- C6 counterexample: a snapshot with `rsi = 50 ∈ [0,100]` but unordered
Bollinger fields (`upper = 0 < lower = 1`, `middle = 1`) and jitter `0 ∈ [0,5)`
yields `features.volatility = -1 < 0`, refuting the claim that volatility is
nonnegative for every IndicatorSnapshot. -/
theorem claim_C6_counterexample :
    (0 ≤ c6snapshot.rsi ∧ c6snapshot.rsi ≤ 100) ∧
    ((0:ℚ) ≤ 0 ∧ (0:ℚ) < 5) ∧
    (predictSignalXGBoost c6snapshot 100 0).features.volatility < 0 := by
  refine ⟨⟨?_, ?_⟩, ⟨le_refl 0, by norm_num⟩, ?_⟩ <;>
    norm_num [c6snapshot, predictSignalXGBoost]

/-- C6 amended: for rsi in [0,100], jitter in [0,5), and a snapshot whose
Bollinger fields satisfy `lower ≤ upper` and `0 < middle` (as every snapshot
produced by the indicator engine with a nonnegative square root does), the
prediction has confidence in [0,98], rsiNormalized in [-1,1], trendStrength in
{-1,0,1}, and volatility ≥ 0. -/
theorem claim_C6_prediction_bounds (ind : TechnicalIndicators) (p jitter : ℚ)
    (hrsi0 : 0 ≤ ind.rsi) (hrsi1 : ind.rsi ≤ 100)
    (hj0 : 0 ≤ jitter) (_hj5 : jitter < 5)
    (hbb : ind.bollinger.lower ≤ ind.bollinger.upper)
    (hmid : 0 < ind.bollinger.middle) :
    (0 ≤ (predictSignalXGBoost ind p jitter).confidence ∧
      (predictSignalXGBoost ind p jitter).confidence ≤ 98) ∧
    (-1 ≤ (predictSignalXGBoost ind p jitter).features.rsiNormalized ∧
      (predictSignalXGBoost ind p jitter).features.rsiNormalized ≤ 1) ∧
    ((predictSignalXGBoost ind p jitter).features.trendStrength = -1 ∨
      (predictSignalXGBoost ind p jitter).features.trendStrength = 0 ∨
      (predictSignalXGBoost ind p jitter).features.trendStrength = 1) ∧
    0 ≤ (predictSignalXGBoost ind p jitter).features.volatility := by
  unfold predictSignalXGBoost
  dsimp only
  refine ⟨⟨le_max_left 0 _, ?_⟩, ⟨?_, ?_⟩, ?_, ?_⟩
  · have hmin : min |xgbScore ind p| 98 ≤ 98 := min_le_right _ _
    have : min |xgbScore ind p| 98 - jitter ≤ 98 := by linarith
    exact max_le (by norm_num) this
  · rw [le_div_iff₀ (by norm_num : (0:ℚ) < 50)]
    linarith
  · rw [div_le_iff₀ (by norm_num : (0:ℚ) < 50)]
    linarith
  · split_ifs <;> simp
  · exact div_nonneg (by linarith) hmid.le

/-- Witness for the amended C6 at a concrete well-formed snapshot. -/
theorem claim_C6_witness :
    0 ≤ (predictSignalXGBoost
      { rsi := 50
        sma20 := 1
        sma50 := 1
        macd := { value := 0, signal := 0, histogram := 0 }
        bollinger := { middle := 1, upper := 1, lower := 1 }
        atr := 0
        trend := .SIDEWAYS
        signal := .NEUTRAL } 1 0).features.volatility :=
  (claim_C6_prediction_bounds
      { rsi := 50
        sma20 := 1
        sma50 := 1
        macd := { value := 0, signal := 0, histogram := 0 }
        bollinger := { middle := 1, upper := 1, lower := 1 }
        atr := 0
        trend := .SIDEWAYS
        signal := .NEUTRAL } 1 0
      (by norm_num) (by norm_num) (by norm_num) (by norm_num)
      (by norm_num) (by norm_num)).2.2.2

/-- C1: Bollinger ordering.  Every enriched point with all three fields
defined satisfies `bollingerLower ≤ sma20 ≤ bollingerUpper`, and every
snapshot of `performTechnicalAnalysis` satisfies
`bollinger.lower ≤ bollinger.middle ≤ bollinger.upper`, assuming only that the
square root returns a nonnegative value on nonnegative input. -/
theorem claim_C1_bollinger_ordering (sq : ℚ → ℚ) (hsq : ∀ x, 0 ≤ x → 0 ≤ sq x) :
    (∀ (data : List ChartDataPoint), ∀ point ∈ enrichDataWithIndicators sq data,
      ∀ u m l, point.bollingerUpper = some u → point.sma20 = some m →
        point.bollingerLower = some l → l ≤ m ∧ m ≤ u) ∧
    (∀ data : List ChartDataPoint,
      (performTechnicalAnalysis sq data).bollinger.lower ≤
        (performTechnicalAnalysis sq data).bollinger.middle ∧
      (performTechnicalAnalysis sq data).bollinger.middle ≤
        (performTechnicalAnalysis sq data).bollinger.upper) := by
  constructor
  · intro data point hpt u m l hu hm hl
    unfold enrichDataWithIndicators at hpt
    dsimp only at hpt
    simp only [List.mem_map, List.mem_range] at hpt
    obtain ⟨i, hi, rfl⟩ := hpt
    by_cases h20 : 20 ≤ ((data.map (·.price)).take (i + 1)).length
    · rw [enrichPoint_long sq _ i _ h20] at hu hm hl
      dsimp only at hu hm hl
      simp only [Option.some.injEq] at hu hm hl
      have hs : 0 ≤ ((lastN 20 ((data.map (·.price)).take (i + 1))).map
          (fun val => (val - (lastN 20 ((data.map (·.price)).take (i + 1))).sum / 20) ^ 2)).sum := by
        apply List.sum_nonneg
        intro x hx
        simp only [List.mem_map] at hx
        obtain ⟨d, _, rfl⟩ := hx
        positivity
      have hσ : 0 ≤ sq (((lastN 20 ((data.map (·.price)).take (i + 1))).map
          (fun val => (val - (lastN 20 ((data.map (·.price)).take (i + 1))).sum / 20) ^ 2)).sum / 20) :=
        hsq _ (by linarith)
      subst hu hm hl
      constructor <;> linarith
    · rw [enrichPoint_short sq _ i _ h20] at hu
      exact absurd hu (by simp)
  · intro data
    have hσ : 0 ≤ calculateStdDev sq (data.map (·.price)) 20 := by
      unfold calculateStdDev
      split
      · exact le_refl 0
      · dsimp only
        apply hsq
        apply div_nonneg
        · apply List.sum_nonneg
          intro x hx
          simp only [List.mem_map] at hx
          obtain ⟨d, _, rfl⟩ := hx
          positivity
        · exact Nat.cast_nonneg _
    unfold performTechnicalAnalysis
    dsimp only
    constructor <;> linarith

/-- Witness for C1: the snapshot ordering at the concrete empty series, with
the identity as the nonnegative square-root function. -/
theorem claim_C1_witness :
    (performTechnicalAnalysis id []).bollinger.lower ≤
      (performTechnicalAnalysis id []).bollinger.middle ∧
    (performTechnicalAnalysis id []).bollinger.middle ≤
      (performTechnicalAnalysis id []).bollinger.upper :=
  (claim_C1_bollinger_ordering id (fun _ hx => hx)).2 []

/-- C7: streaming merge shape.  With a non-empty stored history: a tick whose
bucket label equals the last stored candle's replaces the last element in
place (length unchanged); a tick with a new label is appended, and if the
resulting length exceeds 200 the oldest entry is dropped; consequently the
stored (enriched) window length never exceeds 200. -/
theorem claim_C7_streaming_merge :
    (∀ (prev : List ChartDataPoint) (c lastCandle : ChartDataPoint),
      prev.getLast? = some lastCandle → lastCandle.date = c.date →
      mergeTick prev c = prev.dropLast ++ [{ lastCandle with
        date := c.date
        price := c.price
        high := c.high
        low := c.low
        volume := c.volume }] ∧
      (mergeTick prev c).length = prev.length) ∧
    (∀ (prev : List ChartDataPoint) (c lastCandle : ChartDataPoint),
      prev.getLast? = some lastCandle → lastCandle.date ≠ c.date →
      (prev.length + 1 ≤ 200 → mergeTick prev c = prev ++ [c]) ∧
      (prev.length + 1 > 200 → mergeTick prev c = (prev ++ [c]).tail)) ∧
    (∀ (sq : ℚ → ℚ) (jitter : ℚ) (btJitter : ℕ → ℚ) (prev : List ChartDataPoint)
      (c : ChartDataPoint), prev.length ≤ 200 →
      ((wsUpdate sq jitter btJitter prev c).1).length ≤ 200) := by
  refine ⟨?_, ?_, ?_⟩
  · intro prev c lastCandle hlast hdate
    have hne : prev ≠ [] := fun hnil => by simp [hnil] at hlast
    have hpos : 0 < prev.length := List.length_pos.mpr hne
    have heq : mergeTick prev c = prev.dropLast ++ [{ lastCandle with
        date := c.date
        price := c.price
        high := c.high
        low := c.low
        volume := c.volume }] := by
      unfold mergeTick
      rw [hlast]
      dsimp only
      rw [if_pos hdate]
    refine ⟨heq, ?_⟩
    rw [heq]
    simp only [List.length_append, List.length_dropLast, List.length_singleton]
    omega
  · intro prev c lastCandle hlast hdate
    constructor
    · intro hlen
      unfold mergeTick
      rw [hlast]
      dsimp only
      rw [if_neg hdate,
        if_neg (by simp only [List.length_append, List.length_singleton]; omega)]
    · intro hlen
      unfold mergeTick
      rw [hlast]
      dsimp only
      rw [if_neg hdate,
        if_pos (by simp only [List.length_append, List.length_singleton]; omega)]
  · intro sq jitter btJitter prev c h
    unfold wsUpdate
    split_ifs with hnil
    · simp [hnil]
    · dsimp only
      rw [enrich_length]
      exact mergeTick_length_le prev c h

/-- Witness for C7: replacing the in-progress candle in a concrete 3-candle
window keeps the length at 3. -/
theorem claim_C7_witness :
    mergeTick [{ date := "a", price := 1 }, { date := "b", price := 2 },
        { date := "c", price := 3 }] { date := "c", price := 4 } =
      [{ date := "a", price := 1 }, { date := "b", price := 2 },
        { date := "c", price := 3 }].dropLast ++
      [{ ({ date := "c", price := 3 } : ChartDataPoint) with
        date := ({ date := "c", price := 4 } : ChartDataPoint).date
        price := ({ date := "c", price := 4 } : ChartDataPoint).price
        high := ({ date := "c", price := 4 } : ChartDataPoint).high
        low := ({ date := "c", price := 4 } : ChartDataPoint).low
        volume := ({ date := "c", price := 4 } : ChartDataPoint).volume }] ∧
    (mergeTick [{ date := "a", price := 1 }, { date := "b", price := 2 },
        { date := "c", price := 3 }] { date := "c", price := 4 }).length =
      [({ date := "a", price := 1 } : ChartDataPoint), { date := "b", price := 2 },
        { date := "c", price := 3 }].length :=
  claim_C7_streaming_merge.1
    [{ date := "a", price := 1 }, { date := "b", price := 2 }, { date := "c", price := 3 }]
    { date := "c", price := 4 } { date := "c", price := 3 } (by simp) rfl

/-- C8 counterexample: with a cache entry written at time 0 and a fetch at
time 60000 (`now - timestamp = TTL` exactly, hence NOT `> TTL`), the code still
invokes the underlying source, refuting "stale and refetched exactly when
`now - entry.timestamp > TTL`". -/
theorem claim_C8_counterexample :
    (fetchCryptoData c8cache "BTC-1h-SPOT" 60000 [] id).2.2 = true ∧
    ¬ ((60000:ℤ) - (0:ℤ) > CACHE_DURATION) := by
  constructor
  · rfl
  · norm_num [CACHE_DURATION]

/-- C8 amended: the fetch returns the cached series with no source call
exactly when an entry exists with `now - timestamp < TTL`, and otherwise calls
the source and overwrites the entry (staleness boundary is `≥ TTL`, not
`> TTL`); hence two fetches strictly within 60 s of each other issue one source
call, and a fetch 61 s later issues a second call overwriting the entry. -/
theorem claim_C8_cache_ttl :
    (∀ (cache : Cache) (key : String) (now : ℤ) (e : CacheEntry)
       (srcData : List ChartDataPoint) (sq : ℚ → ℚ),
      cache key = some e → now - e.timestamp < CACHE_DURATION →
      fetchCryptoData cache key now srcData sq = (e.data, cache, false)) ∧
    (∀ (cache : Cache) (key : String) (now : ℤ)
       (srcData : List ChartDataPoint) (sq : ℚ → ℚ),
      (cache key = none ∨ ∃ e, cache key = some e ∧ CACHE_DURATION ≤ now - e.timestamp) →
      fetchCryptoData cache key now srcData sq =
        (enrichDataWithIndicators sq srcData,
         fun k => if k = key then some ⟨now, enrichDataWithIndicators sq srcData⟩ else cache k,
         true)) ∧
    (∀ (cache : Cache) (key : String) (t0 t1 : ℤ)
       (src0 src1 : List ChartDataPoint) (sq : ℚ → ℚ),
      cache key = none → 0 ≤ t1 - t0 → t1 - t0 < 60000 →
      (fetchCryptoData cache key t0 src0 sq).2.2 = true ∧
      (fetchCryptoData (fetchCryptoData cache key t0 src0 sq).2.1 key t1 src1 sq).2.2 = false ∧
      (fetchCryptoData (fetchCryptoData cache key t0 src0 sq).2.1 key t1 src1 sq).1 =
        (fetchCryptoData cache key t0 src0 sq).1) ∧
    (∀ (cache : Cache) (key : String) (t0 t2 : ℤ)
       (src0 src2 : List ChartDataPoint) (sq : ℚ → ℚ),
      cache key = none → 61000 ≤ t2 - t0 →
      (fetchCryptoData (fetchCryptoData cache key t0 src0 sq).2.1 key t2 src2 sq).2.2 = true ∧
      (fetchCryptoData (fetchCryptoData cache key t0 src0 sq).2.1 key t2 src2 sq).2.1 key =
        some ⟨t2, enrichDataWithIndicators sq src2⟩) := by
  have hmiss : ∀ (cache : Cache) (key : String) (now : ℤ)
      (srcData : List ChartDataPoint) (sq : ℚ → ℚ),
      (cache key = none ∨ ∃ e, cache key = some e ∧ CACHE_DURATION ≤ now - e.timestamp) →
      fetchCryptoData cache key now srcData sq =
        (enrichDataWithIndicators sq srcData,
         fun k => if k = key then some ⟨now, enrichDataWithIndicators sq srcData⟩ else cache k,
         true) := by
    intro cache key now srcData sq h
    rcases h with hnone | ⟨e, hsome, hstale⟩
    · unfold fetchCryptoData
      rw [hnone]
    · unfold fetchCryptoData
      rw [hsome]
      dsimp only
      rw [if_neg (by omega)]
  have hhit : ∀ (cache : Cache) (key : String) (now : ℤ) (e : CacheEntry)
      (srcData : List ChartDataPoint) (sq : ℚ → ℚ),
      cache key = some e → now - e.timestamp < CACHE_DURATION →
      fetchCryptoData cache key now srcData sq = (e.data, cache, false) := by
    intro cache key now e srcData sq hsome hfresh
    unfold fetchCryptoData
    rw [hsome]
    dsimp only
    rw [if_pos hfresh]
  refine ⟨hhit, hmiss, ?_, ?_⟩
  · intro cache key t0 t1 src0 src1 sq hnone h0 h1
    have h : fetchCryptoData cache key t0 src0 sq =
        (enrichDataWithIndicators sq src0,
         fun k => if k = key then some ⟨t0, enrichDataWithIndicators sq src0⟩ else cache k,
         true) := hmiss cache key t0 src0 sq (Or.inl hnone)
    rw [h]
    have hkey : (fun k => if k = key then some (⟨t0, enrichDataWithIndicators sq src0⟩ : CacheEntry)
        else cache k) key = some ⟨t0, enrichDataWithIndicators sq src0⟩ := by simp
    have h2 := hhit (fun k => if k = key then some ⟨t0, enrichDataWithIndicators sq src0⟩
        else cache k) key t1 ⟨t0, enrichDataWithIndicators sq src0⟩ src1 sq hkey
      (by unfold CACHE_DURATION; dsimp only; omega)
    rw [h2]
    exact ⟨rfl, rfl, rfl⟩
  · intro cache key t0 t2 src0 src2 sq hnone h2
    have h : fetchCryptoData cache key t0 src0 sq =
        (enrichDataWithIndicators sq src0,
         fun k => if k = key then some ⟨t0, enrichDataWithIndicators sq src0⟩ else cache k,
         true) := hmiss cache key t0 src0 sq (Or.inl hnone)
    rw [h]
    have hkey : (fun k => if k = key then some (⟨t0, enrichDataWithIndicators sq src0⟩ : CacheEntry)
        else cache k) key = some ⟨t0, enrichDataWithIndicators sq src0⟩ := by simp
    have hm := hmiss (fun k => if k = key then some ⟨t0, enrichDataWithIndicators sq src0⟩
        else cache k) key t2 src2 sq
      (Or.inr ⟨⟨t0, enrichDataWithIndicators sq src0⟩, hkey,
        by unfold CACHE_DURATION; dsimp only; omega⟩)
    rw [hm]
    exact ⟨rfl, by simp⟩

/-- Witness for the amended C8 at concrete inputs: a fresh entry (1 ms old) is
served from the cache with no source call. -/
theorem claim_C8_witness :
    fetchCryptoData c8cache "BTC-1h-SPOT" 1 [] id = (([] : List ChartDataPoint), c8cache, false) :=
  claim_C8_cache_ttl.1 c8cache "BTC-1h-SPOT" 1 ⟨0, []⟩ [] id (by simp [c8cache])
    (by norm_num [CACHE_DURATION])

/-- C4: backtest state invariant.  For strictly positive prices and a
nonnegative initial balance, every loop state of `runBacktest` keeps
`balance ≥ 0` and `shares ≥ 0` (no shorting, no leverage), the equity curve
records one entry per executed step, each recorded equity equals
`balance + shares * currentPrice` of the state after that step, and
`runBacktest` returns exactly the curve of the final loop state. -/
theorem claim_C4_backtest_invariants (sq : ℚ → ℚ) (jitter : ℕ → ℚ)
    (data : List ChartDataPoint) (initialBalance : ℚ)
    (hpos : ∀ p ∈ data, 0 < p.price) (hinit : 0 ≤ initialBalance) :
    (∀ n, 0 ≤ (btStates sq jitter data initialBalance n).balance ∧
      0 ≤ (btStates sq jitter data initialBalance n).shares) ∧
    (∀ n, (btStates sq jitter data initialBalance n).equityCurve.length = n) ∧
    (∀ n k, k < n →
      ((btStates sq jitter data initialBalance n).equityCurve.getD k default).price =
        (btStates sq jitter data initialBalance (k + 1)).balance +
        (btStates sq jitter data initialBalance (k + 1)).shares *
          (data.getD (50 + k) default).price) ∧
    (runBacktest sq jitter data initialBalance).equityCurve =
      (btStates sq jitter data initialBalance (data.length - 50)).equityCurve := by
  have hp : ∀ i, 0 ≤ (data.getD i default).price := by
    intro i
    by_cases hi : i < data.length
    · rw [List.getD_eq_getElem _ default hi]
      exact (hpos _ (List.getElem_mem hi)).le
    · rw [List.getD_eq_default _ default (le_of_not_lt hi)]
      exact le_refl 0
  have hnn : ∀ n, 0 ≤ (btStates sq jitter data initialBalance n).balance ∧
      0 ≤ (btStates sq jitter data initialBalance n).shares := by
    intro n
    induction n with
    | zero => exact ⟨hinit, le_refl 0⟩
    | succ n ih =>
      rw [btStates_succ]
      exact btStep_spec sq jitter data _ (50 + n) ih.1 ih.2 (hp (50 + n))
  have hlen : ∀ n, (btStates sq jitter data initialBalance n).equityCurve.length = n := by
    intro n
    induction n with
    | zero => rfl
    | succ n ih =>
      rw [btStates_succ, btStep_curve]
      simp [ih]
  refine ⟨hnn, hlen, ?_, ?_⟩
  · intro n
    induction n with
    | zero => intro k hk; exact absurd hk (by omega)
    | succ n ih =>
      intro k hk
      rw [btStates_succ, btStep_curve]
      by_cases hkn : k < n
      · rw [List.getD_append _ _ default k (by rw [hlen n]; exact hkn)]
        exact ih k hkn
      · have hk' : k = n := by omega
        subst hk'
        have hkl : (btStates sq jitter data initialBalance k).equityCurve.length ≤ k :=
          le_of_eq (hlen k)
        rw [List.getD_append_right _ _ default k hkl, hlen k, Nat.sub_self]
        rw [btStates_succ]
        rfl
  · rfl

/-- Witness for C4 at the concrete empty series with zero initial balance. -/
theorem claim_C4_witness :
    (0 ≤ (btStates id (fun _ => 0) [] 0 0).balance ∧
     0 ≤ (btStates id (fun _ => 0) [] 0 0).shares) ∧
    (btStates id (fun _ => 0) [] 0 0).equityCurve.length = 0 :=
  ⟨(claim_C4_backtest_invariants id (fun _ => 0) [] 0 (by simp) (le_refl 0)).1 0,
   (claim_C4_backtest_invariants id (fun _ => 0) [] 0 (by simp) (le_refl 0)).2.1 0⟩

end NeuroCrypto
